import Mathlib

/-!
# LevelTalk — verification of the dialog generation/synthesis pipeline

A shallow embedding of the LevelTalk Go repository, covering:

* the vocabulary normalizer `parseWords` (internal/http/server.go);
* the stub LLM client (internal/llm, `StubClient.GenerateDialog`);
* the OpenAI generation client's response processing
  (internal/llm/openai.go, `GenerateDialog`);
* the ElevenLabs synthesis client (internal/tts, `SynthesizeDialog`);
* the orchestration service (internal/dialogs/service.go, `CreateDialog`);
* the PostgreSQL dialog repository (internal/storage, `Create`/`GetByID`).

Modelling conventions:

* Go strings are `List Char` (`GoStr`); whitespace and case folding are
  modelled at the ASCII level (the call sites embedded here only split on
  ASCII separators).
* Go `uuid.UUID` is `Nat`, with `uuid.Nil = 0`; `uuid.New()` is modelled by
  threading a counter `ctr` and handing out `ctr+1, ctr+2, ...`, so fresh
  identifiers are never `0`.
* Go maps (`map[string]string`) are association lists with unique keys;
  map assignment replaces the binding of an existing key; `nil` maps and
  empty maps are both the empty list.
* I/O (HTTP transport, JSON decoding of provider responses, the SQL
  driver) is abstracted into oracle parameters: a provider reply value per
  request, and an in-memory table state for the database.  Everything after
  those boundaries is translated statement by statement from the source.
-/

/-! ## Go-style strings -/

/-- Go strings, modelled as character lists. -/
abbrev GoStr := List Char

/-- Coerce a Lean string literal to a `GoStr`. -/
def gs (s : String) : GoStr := s.data

/-- ASCII whitespace, as recognised by `unicode.IsSpace` on ASCII input
(the only code points the embedded call sites ever trim or split on). -/
def isSpace (c : Char) : Bool :=
  c == ' ' || c == '\t' || c == '\n' || c == '\r' || c == '\x0b' || c == '\x0c'

/-- Go `strings.TrimSpace`: drop leading and trailing whitespace. -/
def trimSpace (s : GoStr) : GoStr :=
  (((s.dropWhile isSpace).reverse).dropWhile isSpace).reverse

/-- Split a string at every separator character, keeping empty segments
(the segments of `l` between separators, in order). -/
def splitSeps (p : Char → Bool) : GoStr → List GoStr
  | [] => [[]]
  | c :: rest =>
    match splitSeps p rest with
    | [] => if p c then [[], []] else [[c]]
    | s :: ss => if p c then [] :: s :: ss else (c :: s) :: ss

/-- Go `strings.FieldsFunc`: the maximal runs of non-separator characters,
i.e. the nonempty segments between separators. -/
def fieldsFunc (p : Char → Bool) (s : GoStr) : List GoStr :=
  (splitSeps p s).filter (· ≠ [])

/-- Go `strings.Fields` is `FieldsFunc` with `unicode.IsSpace`. -/
def fields (s : GoStr) : List GoStr := fieldsFunc isSpace s

/-- ASCII `strings.ToLower` (the one call site lowercases two-letter
ASCII language codes). -/
def toLower (s : GoStr) : GoStr := s.map Char.toLower

/-- Unicode simple case folding (the relation behind Go's
`strings.EqualFold` / `unicode.SimpleFold`), carried out by mapping each
rune to the lowercase representative of its fold orbit.  The table covers
the scripts of this app's supported languages — ASCII, Latin-1, Latin
Extended-A, the unaccented Greek letters, and Cyrillic — and is the
identity elsewhere; fold orbits larger than an upper/lower pair (such as
the Kelvin sign) do not occur in these ranges. -/
def foldRune (c : Char) : Char :=
  let n := c.toNat
  if 0x41 ≤ n ∧ n ≤ 0x5A then Char.ofNat (n + 0x20)
  else if 0xC0 ≤ n ∧ n ≤ 0xDE ∧ n ≠ 0xD7 then Char.ofNat (n + 0x20)
  else if 0x100 ≤ n ∧ n ≤ 0x137 ∧ n % 2 = 0 then Char.ofNat (n + 1)
  else if 0x139 ≤ n ∧ n ≤ 0x148 ∧ n % 2 = 1 then Char.ofNat (n + 1)
  else if 0x14A ≤ n ∧ n ≤ 0x177 ∧ n % 2 = 0 then Char.ofNat (n + 1)
  else if n = 0x178 then Char.ofNat 0xFF
  else if 0x179 ≤ n ∧ n ≤ 0x17E ∧ n % 2 = 1 then Char.ofNat (n + 1)
  else if n = 0x3C2 then Char.ofNat 0x3C3
  else if 0x391 ≤ n ∧ n ≤ 0x3AB ∧ n ≠ 0x3A2 then Char.ofNat (n + 0x20)
  else if 0x410 ≤ n ∧ n ≤ 0x42F then Char.ofNat (n + 0x20)
  else if 0x400 ≤ n ∧ n ≤ 0x40F then Char.ofNat (n + 0x50)
  else c

/-- Go `strings.EqualFold`: rune-by-rune equality up to Unicode simple
case folding. -/
def eqFold (a b : GoStr) : Bool := a.map foldRune == b.map foldRune

/-- UTF-8 encoding of one rune, exactly as Go lays strings out in
memory. -/
def utf8Encode (c : Char) : List Nat :=
  let n := c.toNat
  if n < 0x80 then [n]
  else if n < 0x800 then [0xC0 + n / 64, 0x80 + n % 64]
  else if n < 0x10000 then
    [0xE0 + n / 4096, 0x80 + n / 64 % 64, 0x80 + n % 64]
  else
    [0xF0 + n / 262144, 0x80 + n / 4096 % 64, 0x80 + n / 64 % 64, 0x80 + n % 64]

/-- The UTF-8 byte sequence of a string: Go's `len` and slicing operate
on these bytes. -/
def utf8Bytes (s : GoStr) : List Nat := (s.map utf8Encode).flatten

/-- Decimal rendering of a natural number, as Go's `%d` for the
non-negative values that occur in this codebase. -/
def natToChars (n : Nat) : GoStr := (Nat.repr n).data

/-! ## Identifiers and maps -/

/-- Go `uuid.UUID`, abstracted; `0` plays the role of `uuid.Nil`. -/
abbrev UUID := Nat

/-- Go `uuid.Nil`. -/
def uuidNil : UUID := 0

/-- Go `map[string]string`, as an association list with unique keys. -/
abbrev TransMap := List (GoStr × GoStr)

/-- Go map read `m[k]` (with its `ok` flag as `Option`). -/
def lookupKey : TransMap → GoStr → Option GoStr
  | [], _ => none
  | (k, v) :: rest, key => if k = key then some v else lookupKey rest key

/-- Go map write `m[k] = v`: replace the binding if the key is present,
otherwise append it. -/
def mapInsert : TransMap → GoStr → GoStr → TransMap
  | [], k, v => [(k, v)]
  | (k', v') :: rest, k, v =>
    if k' = k then (k, v) :: rest else (k', v') :: mapInsert rest k v

/-! ## Data model (internal/dialogs, types) -/

/-- Type `dialogs.DialogTurn`. -/
structure DialogTurn where
  id : UUID
  speaker : GoStr
  text : GoStr
  audioURL : GoStr
  position : Nat
deriving DecidableEq, Repr

/-- Type `dialogs.Dialog` (with the `Title`/`Translations` fields used by the
service, LLM client and repository).  `title` is carried as its UTF-8
byte sequence: the OpenAI client's fallback-title truncation is a Go
byte-slice that can split a multi-byte character, which the
character-level view cannot represent; every other operation on the title
copies it whole, where the two views agree. -/
structure Dialog where
  id : UUID
  title : List Nat
  inputLanguage : GoStr
  dialogLanguage : GoStr
  cefrLevel : GoStr
  inputWords : List GoStr
  translations : TransMap
  turns : List DialogTurn
  createdAt : Nat
deriving DecidableEq, Repr

/-- Type `dialogs.GenerateDialogParams`. -/
structure GenerateDialogParams where
  inputLanguage : GoStr
  dialogLanguage : GoStr
  cefrLevel : GoStr
  inputWords : List GoStr
deriving DecidableEq, Repr

/-- Type `dialogs.CreateDialogInput`. -/
structure CreateDialogInput where
  inputLanguage : GoStr
  dialogLanguage : GoStr
  cefrLevel : GoStr
  inputWords : List GoStr
deriving DecidableEq, Repr

/-! ## Vocabulary normalizer (internal/http/server.go, `parseWords`) -/

/-- Function `parseWords` from internal/http/server.go: comma-preferred splitting,
then trim each field and drop fields that trim to empty. -/
def parseWords (raw : GoStr) : List GoStr :=
  if ',' ∈ raw then
    let fs := fieldsFunc (fun c => c == ',' || c == '\n' || c == '\r') raw
    (fs.map trimSpace).filter (· ≠ [])
  else
    let fs := fields raw
    (fs.map trimSpace).filter (· ≠ [])

/-! ## Stub LLM client (internal/llm, `StubClient`) -/

/-- The stub's language-keyed sentence opener (`prefix` map lookup with
its empty-value default, from `buildSentence`). -/
def stubBase (language : GoStr) : GoStr :=
  if toLower language = gs "es" then gs "Hablemos sobre"
  else if toLower language = gs "en" then gs "Let's talk about"
  else if toLower language = gs "ru" then gs "Давайте поговорим о"
  else if toLower language = gs "fi" then gs "Puhutaan"
  else if toLower language = gs "de" then gs "Lass uns über"
  else if toLower language = gs "fr" then gs "Parlons de"
  else gs "Let's discuss"

/-- Function `buildSentence` from the stub LLM client: the opener, the vocabulary
word, and a CEFR/turn-number suffix. -/
def buildSentence (language level word : GoStr) (idx : Nat) : GoStr :=
  stubBase language ++ gs " " ++ word ++ gs " (CEFR " ++ level ++ gs ", turn " ++
    natToChars (idx + 1) ++ gs ")."

/-- Function `llm.StubClient.GenerateDialog`: deterministic dialog with
`max 4 (len words)` turns, speakers alternating Ana/Luis, each turn's
sentence built around `words[i % len(words)]`. -/
def StubLLMClient.GenerateDialog (params : GenerateDialogParams) :
    Except GoStr Dialog :=
  if params.inputWords.length = 0 then .error (gs "input words required")
  else
    let turnCount := max 4 params.inputWords.length
    let turns := (List.range turnCount).map (fun i =>
      let word := params.inputWords.getD (i % params.inputWords.length) []
      { id := uuidNil,
        speaker := if i % 2 = 0 then gs "Ana" else gs "Luis",
        text := buildSentence params.dialogLanguage params.cefrLevel word i,
        audioURL := [], position := 0 : DialogTurn })
    .ok { id := uuidNil, title := [], inputLanguage := [], dialogLanguage := [],
          cefrLevel := [], inputWords := [], translations := [],
          turns := turns, createdAt := 0 }

/-! ## OpenAI generation client (internal/llm/openai.go) -/

/-- One entry of the model's `turns` JSON array. -/
structure RawTurn where
  speaker : GoStr
  text : GoStr
deriving DecidableEq, Repr

/-- The model's decoded JSON payload (`dialogJSON` in openai.go). -/
structure DialogJSON where
  title : GoStr
  turns : List RawTurn
  translations : TransMap
deriving DecidableEq, Repr

/-- The turn-filtering loop of `OpenAIClient.GenerateDialog`: trim speaker
and text, silently drop turns where either is empty, and stamp each kept
turn with `Position: i` — `i` being the index in the original `parsed.Turns`
slice, not in the filtered output. -/
def buildTurns : Nat → List RawTurn → List DialogTurn
  | _, [] => []
  | i, t :: rest =>
    let speaker := trimSpace t.speaker
    let text := trimSpace t.text
    if speaker = [] ∨ text = [] then buildTurns (i + 1) rest
    else { id := uuidNil, speaker := speaker, text := text,
           audioURL := [], position := i } :: buildTurns (i + 1) rest

/-- The title block of `OpenAIClient.GenerateDialog`: trim the model's
title; if empty, fall back to the first turn's trimmed text truncated at
its first 50 BYTES (Go's `len`/slicing are byte-level and can split a
multi-byte character) plus "...", or to the literal "Dialog" when no turn
is available.  The result is the title's UTF-8 byte sequence. -/
def openaiTitle (rawTitle : GoStr) (turns : List DialogTurn) : List Nat :=
  let title := trimSpace rawTitle
  if title ≠ [] then utf8Bytes title
  else
    match turns with
    | t0 :: _ =>
      if t0.text ≠ [] then
        let firstText := utf8Bytes (trimSpace t0.text)
        if firstText.length > 50 then firstText.take 50 ++ utf8Bytes (gs "...")
        else firstText
      else utf8Bytes (gs "Dialog")
    | [] => utf8Bytes (gs "Dialog")

/-- The inner `for key, trans := range translations` loop: the first entry
whose trimmed key case-insensitively equals the target and whose value is
nonempty. -/
def findFold : TransMap → GoStr → Option GoStr
  | [], _ => none
  | (k, v) :: rest, key =>
    if eqFold (trimSpace k) key ∧ v ≠ [] then some v else findFold rest key

/-- The per-word translation resolution of `OpenAIClient.GenerateDialog`:
exact-match value if present and nonempty, else the first nonempty
case-insensitive match, else the empty string. -/
def resolveWord (m : TransMap) (t : GoStr) : GoStr :=
  match lookupKey m t with
  | some v => if v ≠ [] then v else (findFold m t).getD []
  | none => (findFold m t).getD []

/-- The translations-normalization loop of `OpenAIClient.GenerateDialog`:
for each input word (trimmed) store its resolved translation; keys not
drawn from the input words never enter the result. -/
def normalizeTranslations (ws : List GoStr) (m : TransMap) : TransMap :=
  ws.foldl (fun acc w => mapInsert acc (trimSpace w) (resolveWord m (trimSpace w))) []

/-- Function `OpenAIClient.GenerateDialog`, from the point where the provider's
JSON payload has been obtained.  The HTTP call, status/choices checks,
code-fence stripping and JSON decoding are abstracted into `pre`: an
`Except` holding either the decoded `dialogJSON` or the error those stages
produced. -/
def OpenAIClient.GenerateDialog (pre : Except GoStr DialogJSON)
    (params : GenerateDialogParams) : Except GoStr Dialog :=
  match pre with
  | .error e => .error e
  | .ok parsed =>
    if parsed.turns.length = 0 then .error (gs "openai returned no dialog turns")
    else
      let turns := buildTurns 0 parsed.turns
      if turns.length = 0 then .error (gs "openai returned empty turns after validation")
      else
        .ok { id := uuidNil, title := openaiTitle parsed.title turns,
              inputLanguage := [], dialogLanguage := [], cefrLevel := [],
              inputWords := [],
              translations := normalizeTranslations params.inputWords parsed.translations,
              turns := turns, createdAt := 0 }

/-! ## ElevenLabs synthesis client (internal/tts) -/

/-- The synthesis provider's reply to one request: transport failure, or
an HTTP response with status code and raw audio bytes. -/
inductive TTSReply where
  | transportErr (msg : GoStr)
  | httpResp (status : Nat) (body : List Nat)
deriving DecidableEq, Repr

/-- Standard base64 alphabet. -/
def b64Alphabet : GoStr :=
  gs "ABCDEFGHIJKLMNOPQRSTUVWXYZabcdefghijklmnopqrstuvwxyz0123456789+/"

/-- One base64 digit. -/
def b64Char (n : Nat) : Char := b64Alphabet.getD n 'A'

/-- Go `base64.StdEncoding.EncodeToString` over byte values. -/
def base64Encode : List Nat → GoStr
  | [] => []
  | [b1] => [b64Char (b1 / 4), b64Char (b1 % 4 * 16), '=', '=']
  | [b1, b2] => [b64Char (b1 / 4), b64Char (b1 % 4 * 16 + b2 / 16),
                 b64Char (b2 % 16 * 4), '=']
  | b1 :: b2 :: b3 :: rest =>
    [b64Char (b1 / 4), b64Char (b1 % 4 * 16 + b2 / 16),
     b64Char (b2 % 16 * 4 + b3 / 64), b64Char (b3 % 64)] ++ base64Encode rest

/-- The placeholder audio reference, parameterized by turn index. -/
def placeholderAudioURL (i : Nat) : GoStr :=
  gs "/static/audio/placeholder.mp3?turn=" ++ natToChars i

/-- The embedded-audio data URI built from synthesized bytes. -/
def audioDataURL (audio : List Nat) : GoStr :=
  gs "data:audio/mpeg;base64," ++ base64Encode audio

/-- Function `ElevenLabsClient.synthesizeText`: transport failures and HTTP
statuses ≥ 400 are errors — the latter carrying the status and the first
512 bytes of the response body (decoded byte-per-character; the provider's
error bodies are ASCII JSON) — and a successfully read but empty body is
converted into the error "elevenlabs returned empty audio". -/
def ElevenLabsClient.synthesizeText (provider : GoStr → TTSReply)
    (text : GoStr) : Except GoStr (List Nat) :=
  match provider text with
  | .transportErr msg => .error (gs "call elevenlabs: " ++ msg)
  | .httpResp status body =>
    if status ≥ 400 then
      .error (gs "elevenlabs error: status=" ++ natToChars status ++
        gs " body=" ++ (body.take 512).map Char.ofNat)
    else if body.length = 0 then .error (gs "elevenlabs returned empty audio")
    else .ok body

/-- The per-turn loop of `ElevenLabsClient.SynthesizeDialog`: assign a
fresh id to any turn lacking one, synthesize its text, fail the whole call
on a synthesis error (tagged with the turn index), assign the placeholder
reference if the synthesized audio is empty (dead code given
`synthesizeText`), and otherwise the base64 data URI. -/
def ElevenLabsClient.synthTurns (provider : GoStr → TTSReply) :
    Nat → Nat → List DialogTurn → Except GoStr (List DialogTurn × Nat)
  | ctr, _, [] => .ok ([], ctr)
  | ctr, i, t :: rest =>
    let t1 := if t.id = uuidNil then { t with id := ctr + 1 } else t
    let ctr1 := if t.id = uuidNil then ctr + 1 else ctr
    match ElevenLabsClient.synthesizeText provider t1.text with
    | .error e =>
      .error (gs "elevenlabs synthesize turn " ++ natToChars i ++ gs ": " ++ e)
    | .ok audio =>
      let t2 := if audio.length = 0 then { t1 with audioURL := placeholderAudioURL i }
                else { t1 with audioURL := audioDataURL audio }
      match ElevenLabsClient.synthTurns provider ctr1 (i + 1) rest with
      | .error e => .error e
      | .ok (rest2, ctr2) => .ok (t2 :: rest2, ctr2)

/-- Function `ElevenLabsClient.SynthesizeDialog`. -/
def ElevenLabsClient.SynthesizeDialog (provider : GoStr → TTSReply)
    (ctr : Nat) (dlg : Dialog) : Except GoStr (Dialog × Nat) :=
  match ElevenLabsClient.synthTurns provider ctr 0 dlg.turns with
  | .error e => .error e
  | .ok (ts, ctr2) => .ok ({ dlg with turns := ts }, ctr2)

/-- One iteration of the stub TTS loop body. -/
def stubStep (acc : List DialogTurn × Nat) (t : DialogTurn) : List DialogTurn × Nat :=
  let t1 := if t.id = uuidNil then { t with id := acc.2 + 1 } else t
  let c1 := if t.id = uuidNil then acc.2 + 1 else acc.2
  (acc.1 ++ [{ t1 with audioURL := placeholderAudioURL t1.position }], c1)

/-- Function `tts.StubClient.SynthesizeDialog`: assign missing ids and a
placeholder reference keyed by each turn's Position; never fails. -/
def StubTTSClient.SynthesizeDialog (ctr : Nat) (dlg : Dialog) : Dialog × Nat :=
  ({ dlg with turns := (dlg.turns.foldl stubStep ([], ctr)).1 },
   (dlg.turns.foldl stubStep ([], ctr)).2)

/-! ## Orchestration service (internal/dialogs/service.go) -/

/-- The service's failure modes, one per `fmt.Errorf` wrap tag in
`CreateDialog` ("validate input:", "generate dialog:", "tts synthesize:",
"persist dialog:"). -/
inductive ServiceError where
  | invalidInput (msg : GoStr)
  | generation (msg : GoStr)
  | synthesis (msg : GoStr)
  | persistence (msg : GoStr)
deriving DecidableEq, Repr

/-- Function `validateCreateInput` from service.go. -/
def validateCreateInput (input : CreateDialogInput) : Option GoStr :=
  if input.inputLanguage = [] ∨ input.dialogLanguage = [] ∨ input.cefrLevel = [] then
    some (gs "invalid dialog input")
  else if input.inputWords.length = 0 then
    some (gs "invalid dialog input: at least one input word is required")
  else if input.inputWords.any (fun w => trimSpace w == []) then
    some (gs "invalid dialog input: empty word provided")
  else none

/-- The collaborators injected into the service (`Repository`,
`LLMClient`, `TTSClient` interface values), as result oracles. -/
structure ServiceEnv where
  llm : GenerateDialogParams → Except GoStr Dialog
  tts : Dialog → Except GoStr Dialog
  storeCreate : Dialog → Except GoStr Unit

/-- The outward calls one `CreateDialog` run makes, in order, per
collaborator. -/
structure CallTrace where
  llmCalls : List GenerateDialogParams
  ttsCalls : List Dialog
  storeCalls : List Dialog
deriving DecidableEq, Repr

/-- The id/position loop of `Service.CreateDialog`: give every turn
lacking an id a fresh one and overwrite Position with the array index. -/
def renumberTurns : Nat → Nat → List DialogTurn → List DialogTurn × Nat
  | ctr, _, [] => ([], ctr)
  | ctr, i, t :: rest =>
    let t1 := if t.id = uuidNil then { t with id := ctr + 1 } else t
    let ctr1 := if t.id = uuidNil then ctr + 1 else ctr
    ({ t1 with position := i } :: (renumberTurns ctr1 (i + 1) rest).1,
     (renumberTurns ctr1 (i + 1) rest).2)

/-- The `GenerateDialogParams` value `CreateDialog` passes to the
generation client. -/
def paramsOfInput (input : CreateDialogInput) : GenerateDialogParams :=
  { inputLanguage := input.inputLanguage, dialogLanguage := input.dialogLanguage,
    cefrLevel := input.cefrLevel, inputWords := input.inputWords }

/-- The dialog `CreateDialog` assembles after generation: fresh id, the
caller's fields, `CreatedAt = now`, generated title/translations (a nil
translations map defaults to empty — an identity in the association-list
model), and turns renumbered 0..N-1 with fresh ids where missing. -/
def assembleDialog (ctr now : Nat) (input : CreateDialogInput)
    (generated : Dialog) : Dialog :=
  { id := ctr + 1, title := generated.title,
    inputLanguage := input.inputLanguage, dialogLanguage := input.dialogLanguage,
    cefrLevel := input.cefrLevel, inputWords := input.inputWords,
    translations := generated.translations,
    turns := (renumberTurns (ctr + 1) 0 generated.turns).1, createdAt := now }

/-- Function `Service.CreateDialog` from service.go: validate, generate, assemble,
synthesize, persist.  The second component records the calls made to each
collaborator. -/
def Service.CreateDialog (env : ServiceEnv) (ctr now : Nat)
    (input : CreateDialogInput) : Except ServiceError Dialog × CallTrace :=
  match validateCreateInput input with
  | some msg => (.error (.invalidInput msg), ⟨[], [], []⟩)
  | none =>
    match env.llm (paramsOfInput input) with
    | .error e => (.error (.generation e), ⟨[paramsOfInput input], [], []⟩)
    | .ok generated =>
      match env.tts (assembleDialog ctr now input generated) with
      | .error e =>
        (.error (.synthesis e),
         ⟨[paramsOfInput input], [assembleDialog ctr now input generated], []⟩)
      | .ok withAudio =>
        match env.storeCreate withAudio with
        | .error e =>
          (.error (.persistence e),
           ⟨[paramsOfInput input], [assembleDialog ctr now input generated], [withAudio]⟩)
        | .ok _ =>
          (.ok withAudio,
           ⟨[paramsOfInput input], [assembleDialog ctr now input generated], [withAudio]⟩)

/-- The validity condition `validateCreateInput` rejects on. -/
def badCreateInput (input : CreateDialogInput) : Prop :=
  input.inputLanguage = [] ∨ input.dialogLanguage = [] ∨ input.cefrLevel = [] ∨
    input.inputWords = [] ∨ ∃ w ∈ input.inputWords, trimSpace w = []

instance (input : CreateDialogInput) : Decidable (badCreateInput input) := by
  unfold badCreateInput; exact inferInstance

/-! ## PostgreSQL repository (internal/storage) -/

/-- One row of the `dialogs` table (typed in place of its JSONB columns:
`json.Marshal` then `json.Unmarshal` round-trips the typed value). -/
structure DialogRow where
  id : UUID
  inputLanguage : GoStr
  dialogLanguage : GoStr
  cefrLevel : GoStr
  inputWords : List GoStr
  dialogJson : List DialogTurn
  translations : TransMap
  createdAt : Nat
deriving DecidableEq, Repr

/-- One row of the `dialog_turns` table. -/
structure TurnRow where
  id : UUID
  dialogId : UUID
  speaker : GoStr
  text : GoStr
  audioURL : GoStr
  position : Nat
deriving DecidableEq, Repr

/-- The two tables of migrations/001_init.sql. -/
structure DB where
  dialogs : List DialogRow
  dialogTurns : List TurnRow
deriving DecidableEq, Repr

/-- The `INSERT INTO dialog_turns` values for one turn. -/
def rowOfTurn (dialogId : UUID) (t : DialogTurn) : TurnRow :=
  ⟨t.id, dialogId, t.speaker, t.text, t.audioURL, t.position⟩

/-- One `SELECT id, speaker, text, audio_url, position` row scanned back into a
`DialogTurn`. -/
def turnOfRow (r : TurnRow) : DialogTurn :=
  ⟨r.id, r.speaker, r.text, r.audioURL, r.position⟩

/-- The per-turn insert loop of `DialogRepository.Create`, enforcing the
schema's primary key on turn id and `UNIQUE(dialog_id, position)`. -/
def insertTurnRows (dialogId : UUID) :
    List TurnRow → List DialogTurn → Except GoStr (List TurnRow)
  | rows, [] => .ok rows
  | rows, t :: rest =>
    let row := rowOfTurn dialogId t
    if rows.any (fun r => r.id == row.id || (r.dialogId == dialogId && r.position == t.position))
    then .error (gs "insert turn: unique constraint violation")
    else insertTurnRows dialogId (rows ++ [row]) rest

/-- Function `DialogRepository.Create`: transactionally insert the dialog row and
one row per turn; on any constraint violation nothing is committed. -/
def DialogRepository.Create (db : DB) (dlg : Dialog) : Except GoStr DB :=
  if db.dialogs.any (fun r => r.id == dlg.id) then
    .error (gs "insert dialog: unique constraint violation")
  else
    match insertTurnRows dlg.id db.dialogTurns dlg.turns with
    | .error e => .error e
    | .ok rows =>
      .ok { dialogs := db.dialogs ++
              [⟨dlg.id, dlg.inputLanguage, dlg.dialogLanguage, dlg.cefrLevel,
                dlg.inputWords, dlg.turns, dlg.translations, dlg.createdAt⟩],
            dialogTurns := rows }

/-- The `ORDER BY position ASC` sort on the scanned turns. -/
def sortTurnsByPosition (ts : List DialogTurn) : List DialogTurn :=
  List.insertionSort (fun a b => a.position ≤ b.position) ts

/-- Function `DialogRepository.GetByID`: fetch the dialog row (ErrNotFound when
missing) and its turns ordered by position; the `dialogs` table's Title is
not selected. -/
def DialogRepository.GetByID (db : DB) (id : UUID) : Except GoStr Dialog :=
  match db.dialogs.find? (fun r => r.id == id) with
  | none => .error (gs "dialog not found")
  | some row =>
    .ok { id := row.id, title := [], inputLanguage := row.inputLanguage,
          dialogLanguage := row.dialogLanguage, cefrLevel := row.cefrLevel,
          inputWords := row.inputWords, translations := row.translations,
          turns := sortTurnsByPosition
            ((db.dialogTurns.filter (fun r => r.dialogId == id)).map turnOfRow),
          createdAt := row.createdAt }

/-- Decidable equality on `Except`, for evaluating concrete runs. -/
instance {ε α : Type} [DecidableEq ε] [DecidableEq α] : DecidableEq (Except ε α) := fun a b =>
  match a, b with
  | .error e, .error f =>
    if h : e = f then isTrue (congrArg Except.error h)
    else isFalse (fun hh => h (Except.error.inj hh))
  | .ok x, .ok y =>
    if h : x = y then isTrue (congrArg Except.ok h)
    else isFalse (fun hh => h (Except.ok.inj hh))
  | .error _, .ok _ => isFalse (fun hh => Except.noConfusion hh)
  | .ok _, .error _ => isFalse (fun hh => Except.noConfusion hh)

/-! ## Concrete fixtures used by witnesses and counterexamples -/

/-- A valid creation input. -/
def exInput : CreateDialogInput :=
  ⟨gs "ru", gs "es", gs "B1", [gs "casa"]⟩

/-- The generation parameters `Service.CreateDialog` derives from `exInput`. -/
def exParams : GenerateDialogParams :=
  ⟨gs "ru", gs "es", gs "B1", [gs "casa"]⟩

/-- A generated dialog with one turn carrying a bogus position and a
preassigned id. -/
def exGenerated : Dialog :=
  { id := uuidNil, title := utf8Bytes (gs "Saludos"), inputLanguage := [], dialogLanguage := [],
    cefrLevel := [], inputWords := [], translations := [],
    turns := [⟨9, gs "Ana", gs "Hola", [], 7⟩], createdAt := 0 }

/-- An environment whose generation client always fails. -/
def exEnvLLMFail : ServiceEnv :=
  ⟨fun _ => .error (gs "boom"), fun d => .ok d, fun _ => .ok ()⟩

/-- An environment with a fixed successful generation, identity synthesis
and a successful store. -/
def exEnvOK : ServiceEnv :=
  ⟨fun _ => .ok exGenerated, fun d => .ok d, fun _ => .ok ()⟩

/-- The dialog `Service.CreateDialog exEnvOK 0 0 exInput` persists. -/
def exOutDialog : Dialog :=
  { id := 1, title := utf8Bytes (gs "Saludos"), inputLanguage := gs "ru", dialogLanguage := gs "es",
    cefrLevel := gs "B1", inputWords := [gs "casa"], translations := [],
    turns := [⟨9, gs "Ana", gs "Hola", [], 0⟩], createdAt := 0 }

/-- The matching call trace. -/
def exTrace : CallTrace := ⟨[exParams], [exOutDialog], [exOutDialog]⟩

/-- An invalid creation input (blank input language). -/
def exBadInput : CreateDialogInput :=
  ⟨[], gs "es", gs "B1", [gs "casa"]⟩

/-- A translations payload with an empty exact-match value shadowed by a
nonempty case-insensitive key. -/
def exTransMap : TransMap := [(gs "casa", gs ""), (gs "CASA", gs "house")]

/-- A parsed payload whose first turn is unusable (blank speaker). -/
def exParsedSkip : DialogJSON :=
  ⟨gs "T", [⟨gs "", gs "x"⟩, ⟨gs "A", gs "y"⟩], []⟩

/-- A parsed payload with a blank title and one usable turn. -/
def exParsedNoTitle : DialogJSON :=
  ⟨gs "  ", [⟨gs "A", gs "hola"⟩], []⟩

/-- A provider that always answers 200 with an empty body. -/
def exProviderEmpty : GoStr → TTSReply := fun _ => .httpResp 200 []

/-- A one-turn dialog to synthesize. -/
def exDlgOneTurn : Dialog :=
  { id := 1, title := utf8Bytes (gs "T"), inputLanguage := gs "ru", dialogLanguage := gs "es",
    cefrLevel := gs "B1", inputWords := [gs "casa"], translations := [],
    turns := [⟨3, gs "Ana", gs "Hola", [], 0⟩], createdAt := 0 }

/-- A dialog whose turns are listed against position order. -/
def exDlgUnsorted : Dialog :=
  { id := 5, title := [], inputLanguage := gs "ru", dialogLanguage := gs "es",
    cefrLevel := gs "B1", inputWords := [gs "casa"], translations := [(gs "casa", gs "c")],
    turns := [⟨1, gs "A", gs "x", gs "u", 1⟩, ⟨2, gs "B", gs "y", gs "v", 0⟩],
    createdAt := 3 }

/-- The empty database. -/
def emptyDB : DB := ⟨[], []⟩

/-- The database state after persisting `exDlgUnsorted` into `emptyDB`. -/
def exDBUnsorted : DB :=
  ⟨[⟨5, gs "ru", gs "es", gs "B1", [gs "casa"], exDlgUnsorted.turns,
     [(gs "casa", gs "c")], 3⟩],
   [⟨1, 5, gs "A", gs "x", gs "u", 1⟩, ⟨2, 5, gs "B", gs "y", gs "v", 0⟩]⟩

/-- What `GetByID` returns for `exDlgUnsorted`: turns re-ordered by
position. -/
def exFetchedUnsorted : Dialog :=
  { id := 5, title := [], inputLanguage := gs "ru", dialogLanguage := gs "es",
    cefrLevel := gs "B1", inputWords := [gs "casa"], translations := [(gs "casa", gs "c")],
    turns := [⟨2, gs "B", gs "y", gs "v", 0⟩, ⟨1, gs "A", gs "x", gs "u", 1⟩],
    createdAt := 3 }

/-- A dialog whose turns are listed in ascending position order. -/
def exDlgSorted : Dialog :=
  { id := 8, title := [], inputLanguage := gs "ru", dialogLanguage := gs "es",
    cefrLevel := gs "B1", inputWords := [gs "casa", gs "perro"],
    translations := [(gs "casa", gs "c"), (gs "perro", gs "p")],
    turns := [⟨1, gs "A", gs "x", gs "u", 0⟩, ⟨2, gs "B", gs "y", gs "v", 1⟩],
    createdAt := 4 }

/-- The database state after persisting `exDlgSorted` into `emptyDB`. -/
def exDBSorted : DB :=
  ⟨[⟨8, gs "ru", gs "es", gs "B1", [gs "casa", gs "perro"], exDlgSorted.turns,
     [(gs "casa", gs "c"), (gs "perro", gs "p")], 4⟩],
   [⟨1, 8, gs "A", gs "x", gs "u", 0⟩, ⟨2, 8, gs "B", gs "y", gs "v", 1⟩]⟩

/-- What `OpenAIClient.GenerateDialog (.ok exParsedSkip) exParams` returns:
the surviving turn keeps its original index 1 as Position. -/
def exSkipOut : Dialog :=
  { id := uuidNil, title := utf8Bytes (gs "T"), inputLanguage := [], dialogLanguage := [],
    cefrLevel := [], inputWords := [], translations := [(gs "casa", gs "")],
    turns := [⟨uuidNil, gs "A", gs "y", [], 1⟩], createdAt := 0 }

/-- What `OpenAIClient.GenerateDialog (.ok exParsedNoTitle) exParams`
returns: the title falls back to the first turn's text. -/
def exNoTitleOut : Dialog :=
  { id := uuidNil, title := utf8Bytes (gs "hola"), inputLanguage := [], dialogLanguage := [],
    cefrLevel := [], inputWords := [], translations := [(gs "casa", gs "")],
    turns := [⟨uuidNil, gs "A", gs "hola", [], 0⟩], createdAt := 0 }

/-- A parsed payload carrying `exTransMap` as translations. -/
def exParsedTrans : DialogJSON :=
  ⟨gs "T", [⟨gs "A", gs "y"⟩], exTransMap⟩

/-- What `OpenAIClient.GenerateDialog (.ok exParsedTrans) exParams`
returns: "casa" resolves to CASA's value, not to its exact match. -/
def exTransOut : Dialog :=
  { id := uuidNil, title := utf8Bytes (gs "T"), inputLanguage := [], dialogLanguage := [],
    cefrLevel := [], inputWords := [], translations := [(gs "casa", gs "house")],
    turns := [⟨uuidNil, gs "A", gs "y", [], 0⟩], createdAt := 0 }

/-- Cyrillic generation parameters (input word in lowercase). -/
def exParamsRu : GenerateDialogParams :=
  ⟨gs "ru", gs "es", gs "B1", [gs "дом"]⟩

/-- A parsed payload whose translations key differs from the input word
only by (non-ASCII) letter case. -/
def exParsedRu : DialogJSON :=
  ⟨gs "T", [⟨gs "A", gs "y"⟩], [(gs "ДОМ", gs "la casa")]⟩

/-- What `OpenAIClient.GenerateDialog (.ok exParsedRu) exParamsRu`
returns: the Cyrillic case-insensitive match fires. -/
def exRuOut : Dialog :=
  { id := uuidNil, title := utf8Bytes (gs "T"), inputLanguage := [],
    dialogLanguage := [], cefrLevel := [], inputWords := [],
    translations := [(gs "дом", gs "la casa")],
    turns := [⟨uuidNil, gs "A", gs "y", [], 0⟩], createdAt := 0 }

/-- A first-turn text of 31 characters but 61 UTF-8 bytes (one ASCII
letter, then thirty two-byte Cyrillic letters): byte 50 falls inside a
character. -/
def exRuText : GoStr := gs "xабвгдеёжзийклмнопрстуфхцчшщъыь"

/-- A parsed payload with a blank title and `exRuText` as its only
turn. -/
def exParsedLongRu : DialogJSON :=
  ⟨gs "", [⟨gs "A", exRuText⟩], []⟩

/-- What `OpenAIClient.GenerateDialog (.ok exParsedLongRu) exParams`
returns: the fallback title is cut at 50 bytes — mid-character — although
the text is only 31 characters long. -/
def exLongRuOut : Dialog :=
  { id := uuidNil, title := (utf8Bytes exRuText).take 50 ++ utf8Bytes (gs "..."),
    inputLanguage := [], dialogLanguage := [], cefrLevel := [], inputWords := [],
    translations := [(gs "casa", gs "")],
    turns := [⟨uuidNil, gs "A", exRuText, [], 0⟩], createdAt := 0 }

/-! ## Helper lemmas -/

theorem trimSpace_nil : trimSpace [] = [] := rfl

theorem splitSeps_ne_nil (p : Char → Bool) (s : GoStr) : splitSeps p s ≠ [] := by
  cases s with
  | nil => simp [splitSeps]
  | cons c rest =>
    simp only [splitSeps]
    split <;> split <;> simp

theorem splitSeps_all_sep {p : Char → Bool} {s : GoStr}
    (h : ∀ c ∈ s, p c) : ∀ t ∈ splitSeps p s, t = [] := by
  induction s with
  | nil => intro t ht; simp [splitSeps] at ht; exact ht
  | cons c rest ih =>
    have hc : p c := h c (List.mem_cons_self _ _)
    have hrest : ∀ x ∈ rest, p x := fun x hx => h x (List.mem_cons_of_mem _ hx)
    intro t
    simp only [splitSeps]
    cases hsplit : splitSeps p rest with
    | nil => exact absurd hsplit (splitSeps_ne_nil p rest)
    | cons a as =>
      simp only [hc, if_true]
      intro ht
      rcases List.mem_cons.mp ht with h1 | h2
      · exact h1
      · exact ih hrest t (by rw [hsplit]; exact h2)

/-- Trimming an empty token gives an empty token, so filtering empties
before or after the trim-and-filter pipeline is immaterial. -/
theorem filter_map_trim_filter (l : List GoStr) :
    ((l.filter (· ≠ [])).map trimSpace).filter (· ≠ []) =
      (l.map trimSpace).filter (· ≠ []) := by
  induction l with
  | nil => rfl
  | cons x xs ih =>
    simp only [decide_not] at ih
    by_cases hx : x = [] <;> by_cases ht : trimSpace x = [] <;>
      simp [hx, ht, trimSpace_nil, List.filter_cons, ih]

/-! ## C6 — vocabulary normalizer -/

/-- C6: `parseWords` splits on commas and line breaks when the raw string
contains a comma and on whitespace otherwise; every token empty after
trimming is discarded; an all-blank input yields the empty sequence; and
"casa, perro\nlibro" normalizes to [casa, perro, libro] while
"casa perro" normalizes to [casa, perro]. -/
theorem C6_parseWords_spec :
    (∀ raw : GoStr,
        parseWords raw =
          if ',' ∈ raw then
            ((splitSeps (fun c => c == ',' || c == '\n' || c == '\r') raw).map
                trimSpace).filter (· ≠ [])
          else
            ((splitSeps isSpace raw).map trimSpace).filter (· ≠ []))
    ∧ (∀ raw : GoStr, (∀ c ∈ raw, isSpace c) → parseWords raw = [])
    ∧ parseWords (gs "casa, perro\nlibro") = [gs "casa", gs "perro", gs "libro"]
    ∧ parseWords (gs "casa perro") = [gs "casa", gs "perro"] := by
  refine ⟨?_, ?_, by decide, by decide⟩
  · intro raw
    by_cases h : ',' ∈ raw
    · rw [if_pos h]
      have hu : parseWords raw =
          ((fieldsFunc (fun c => c == ',' || c == '\n' || c == '\r') raw).map
              trimSpace).filter (· ≠ []) := by
        unfold parseWords; rw [if_pos h]
      rw [hu]
      exact filter_map_trim_filter _
    · rw [if_neg h]
      have hu : parseWords raw = ((fields raw).map trimSpace).filter (· ≠ []) := by
        unfold parseWords; rw [if_neg h]
      rw [hu]
      exact filter_map_trim_filter _
  · intro raw hall
    have hcomma : ',' ∉ raw := fun hm => by
      have := hall ',' hm
      simp [isSpace] at this
    have hseg := splitSeps_all_sep hall
    have hu : parseWords raw = ((fields raw).map trimSpace).filter (· ≠ []) := by
      unfold parseWords; rw [if_neg hcomma]
    have hfields : fields raw = [] := by
      unfold fields fieldsFunc
      rw [List.filter_eq_nil_iff]
      intro t ht
      simp [hseg t ht]
    rw [hu, hfields]
    rfl

/-- C6 witness: the all-blank clause at a concrete blank input. -/
theorem C6_parseWords_spec_witness : parseWords (gs " \n  ") = [] :=
  C6_parseWords_spec.2.1 (gs " \n  ") (by decide)

/-! ## C10 — stub generation client -/

/-- The stub's sentence always embeds the chosen word verbatim. -/
theorem buildSentence_contains (language level word : GoStr) (idx : Nat) :
    ∃ pre post, buildSentence language level word idx = pre ++ word ++ post :=
  ⟨stubBase language ++ gs " ",
   gs " (CEFR " ++ level ++ gs ", turn " ++ natToChars (idx + 1) ++ gs ").",
   by unfold buildSentence; simp [List.append_assoc]⟩

/-- C10: for nonempty InputWords the stub client succeeds with exactly
`max 4 (len InputWords)` turns, speakers alternating Ana/Luis starting
with Ana, and every input word appearing verbatim in some turn's text;
for empty InputWords it returns an error. -/
theorem C10_stub_generate (params : GenerateDialogParams) :
    (params.inputWords = [] →
      StubLLMClient.GenerateDialog params = .error (gs "input words required"))
    ∧ (params.inputWords ≠ [] → ∃ d,
        StubLLMClient.GenerateDialog params = .ok d ∧
        d.turns.length = max 4 params.inputWords.length ∧
        (∀ i, ∀ h : i < d.turns.length,
          (d.turns.get ⟨i, h⟩).speaker = if i % 2 = 0 then gs "Ana" else gs "Luis") ∧
        (∀ w ∈ params.inputWords, ∃ t ∈ d.turns,
          ∃ pre post, t.text = pre ++ w ++ post)) := by
  constructor
  · intro h
    unfold StubLLMClient.GenerateDialog
    rw [if_pos (by simp [h])]
  · intro h
    have hlen : ¬ params.inputWords.length = 0 := by
      simpa [List.length_eq_zero] using h
    unfold StubLLMClient.GenerateDialog
    rw [if_neg hlen]
    refine ⟨_, rfl, by simp, ?_, ?_⟩
    · intro i hi
      have hi' : i < max 4 params.inputWords.length := by simpa using hi
      simp [List.get_eq_getElem]
    · intro w hw
      obtain ⟨⟨j, hj⟩, hget⟩ := List.mem_iff_get.mp hw
      have hjn : j < max 4 params.inputWords.length :=
        lt_of_lt_of_le hj (le_max_right _ _)
      refine ⟨_, List.mem_map_of_mem _ (List.mem_range.mpr hjn), ?_⟩
      have hword : params.inputWords.getD (j % params.inputWords.length) [] = w := by
        rw [Nat.mod_eq_of_lt hj, List.getD_eq_getElem _ _ hj]
        simpa using hget
      show ∃ pre post,
        buildSentence params.dialogLanguage params.cefrLevel
          (params.inputWords.getD (j % params.inputWords.length) []) j =
            pre ++ w ++ post
      rw [hword]
      exact buildSentence_contains _ _ _ _

/-- C10 witness: the success clause at a concrete one-word input. -/
theorem C10_stub_generate_witness :
    ∃ d, StubLLMClient.GenerateDialog exParams = .ok d ∧
      d.turns.length = max 4 exParams.inputWords.length ∧
      (∀ i, ∀ h : i < d.turns.length,
        (d.turns.get ⟨i, h⟩).speaker = if i % 2 = 0 then gs "Ana" else gs "Luis") ∧
      (∀ w ∈ exParams.inputWords, ∃ t ∈ d.turns,
        ∃ pre post, t.text = pre ++ w ++ post) :=
  (C10_stub_generate exParams).2 (by decide)

/-! ## OpenAI client helper lemmas -/

/-- Every turn emitted by the filtering loop carries the index of its
originating raw turn (offset by the starting index), that turn's trimmed
fields, and nonempty speaker/text. -/
theorem buildTurns_mem {i : Nat} {raw : List RawTurn} {t : DialogTurn}
    (h : t ∈ buildTurns i raw) :
    ∃ j, ∃ hj : j < raw.length, t.position = i + j ∧
      t.speaker = trimSpace (raw.get ⟨j, hj⟩).speaker ∧
      t.text = trimSpace (raw.get ⟨j, hj⟩).text ∧
      t.speaker ≠ [] ∧ t.text ≠ [] := by
  induction raw generalizing i with
  | nil => simp [buildTurns] at h
  | cons r rest ih =>
    simp only [buildTurns] at h
    by_cases hskip : trimSpace r.speaker = [] ∨ trimSpace r.text = []
    · rw [if_pos hskip] at h
      obtain ⟨j, hj, hpos, hsp, htx, h1, h2⟩ := ih h
      exact ⟨j + 1, by simpa using Nat.succ_lt_succ hj,
        by omega, hsp, htx, h1, h2⟩
    · rw [if_neg hskip] at h
      push_neg at hskip
      rcases List.mem_cons.mp h with heq | hmem
      · refine ⟨0, by simp, ?_, ?_, ?_, ?_, ?_⟩ <;> rw [heq]
        · simp
        · rfl
        · rfl
        · exact hskip.1
        · exact hskip.2
      · obtain ⟨j, hj, hpos, hsp, htx, h1, h2⟩ := ih hmem
        exact ⟨j + 1, by simpa using Nat.succ_lt_succ hj,
          by omega, hsp, htx, h1, h2⟩

/-- Positions emitted by the filtering loop never fall below the starting
index. -/
theorem buildTurns_pos_ge {i : Nat} {raw : List RawTurn} :
    ∀ t ∈ buildTurns i raw, i ≤ t.position := by
  intro t ht
  obtain ⟨j, hj, hpos, _⟩ := buildTurns_mem ht
  omega

/-- The filtering loop emits strictly increasing positions. -/
theorem buildTurns_pairwise (i : Nat) (raw : List RawTurn) :
    List.Pairwise (fun a b => a.position < b.position) (buildTurns i raw) := by
  induction raw generalizing i with
  | nil => simp [buildTurns]
  | cons r rest ih =>
    simp only [buildTurns]
    split
    · exact ih (i + 1)
    · rw [List.pairwise_cons]
      refine ⟨fun b hb => ?_, ih (i + 1)⟩
      have := buildTurns_pos_ge b hb
      simp only []
      omega

/-- Shape of a successful `OpenAIClient.GenerateDialog` run. -/
theorem openaiGenerate_ok {parsed : DialogJSON} {params : GenerateDialogParams}
    {d : Dialog} (hok : OpenAIClient.GenerateDialog (.ok parsed) params = .ok d) :
    d.turns = buildTurns 0 parsed.turns ∧
    d.title = openaiTitle parsed.title (buildTurns 0 parsed.turns) ∧
    d.translations = normalizeTranslations params.inputWords parsed.translations ∧
    d.turns ≠ [] := by
  simp only [OpenAIClient.GenerateDialog] at hok
  split at hok
  · exact absurd hok (by simp)
  · split at hok
    · exact absurd hok (by simp)
    · rename_i hlen
      injection hok with h
      rw [← h]
      refine ⟨rfl, rfl, rfl, ?_⟩
      simpa [List.length_eq_zero] using hlen

/-! ## C5 — positions of the filtered turns -/

/-- C5 counterexample: with an unusable first turn, the surviving turn
keeps Position 1 — the index in the original sequence — so the filtered
output's positions are not `0..M-1`. -/
theorem C5_counterexample :
    OpenAIClient.GenerateDialog (.ok exParsedSkip) exParams = .ok exSkipOut ∧
    exSkipOut.turns.length = 1 ∧
    exSkipOut.turns.map (fun t => t.position) = [1] := by decide

/-- C5 (amended): each turn surviving the drop-unusable filter carries as
Position its index in the original parsed sequence (not the filtered one);
positions are strictly increasing, order-preserving, and each surviving
turn holds the trimmed nonempty fields of the raw turn at its Position. -/
theorem C5_positions_are_original_indices (parsed : DialogJSON)
    (params : GenerateDialogParams) (d : Dialog)
    (hok : OpenAIClient.GenerateDialog (.ok parsed) params = .ok d) :
    (∀ t ∈ d.turns, ∃ hj : t.position < parsed.turns.length,
      t.speaker = trimSpace (parsed.turns.get ⟨t.position, hj⟩).speaker ∧
      t.text = trimSpace (parsed.turns.get ⟨t.position, hj⟩).text ∧
      t.speaker ≠ [] ∧ t.text ≠ []) ∧
    List.Pairwise (fun a b => a.position < b.position) d.turns := by
  obtain ⟨hturns, -, -, -⟩ := openaiGenerate_ok hok
  constructor
  · intro t ht
    rw [hturns] at ht
    obtain ⟨j, hj, hpos, hsp, htx, h1, h2⟩ := buildTurns_mem ht
    have hj' : j = t.position := by omega
    subst hj'
    exact ⟨hj, hsp, htx, h1, h2⟩
  · rw [hturns]
    exact buildTurns_pairwise 0 parsed.turns

/-- C5 witness: the amended statement at the concrete skip fixture. -/
theorem C5_positions_witness :
    (∀ t ∈ exSkipOut.turns, ∃ hj : t.position < exParsedSkip.turns.length,
      t.speaker = trimSpace (exParsedSkip.turns.get ⟨t.position, hj⟩).speaker ∧
      t.text = trimSpace (exParsedSkip.turns.get ⟨t.position, hj⟩).text ∧
      t.speaker ≠ [] ∧ t.text ≠ []) ∧
    List.Pairwise (fun a b => a.position < b.position) exSkipOut.turns :=
  C5_positions_are_original_indices exParsedSkip exParams exSkipOut (by decide)

/-! ## C9 — title fallback -/

/-- C9 counterexample: a 31-character (61-byte) first-turn text is well
under 50 characters, yet the fallback title is not the unmodified text —
it is cut at its first 50 BYTES (splitting the 26th character) plus "...",
because Go's `len` and slicing are byte-level. -/
theorem C9_counterexample :
    OpenAIClient.GenerateDialog (.ok exParsedLongRu) exParams = .ok exLongRuOut ∧
    (trimSpace exRuText).length = 31 ∧
    (utf8Bytes (trimSpace exRuText)).length = 61 ∧
    exLongRuOut.title = (utf8Bytes exRuText).take 50 ++ utf8Bytes (gs "...") ∧
    exLongRuOut.title ≠ utf8Bytes (trimSpace exRuText) := by
  decide

/-- C9 (amended): the model's title is trimmed and used when nonempty;
when it trims to empty, the title falls back to the first kept turn's
trimmed text truncated to its first 50 UTF-8 BYTES plus "..." only when
longer than 50 bytes (text of at most 50 bytes is used unmodified; the
byte cut can split a multi-byte character); with no turns at all the
defensive fallback is the literal "Dialog". -/
theorem C9_title_fallback (parsed : DialogJSON) (params : GenerateDialogParams)
    (d : Dialog) (hok : OpenAIClient.GenerateDialog (.ok parsed) params = .ok d) :
    (trimSpace parsed.title ≠ [] → d.title = utf8Bytes (trimSpace parsed.title)) ∧
    (trimSpace parsed.title = [] → ∃ t0 ts, d.turns = t0 :: ts ∧
      d.title = (if (utf8Bytes (trimSpace t0.text)).length > 50
                 then (utf8Bytes (trimSpace t0.text)).take 50 ++ utf8Bytes (gs "...")
                 else utf8Bytes (trimSpace t0.text))) ∧
    (∀ rawTitle, trimSpace rawTitle = [] →
      openaiTitle rawTitle [] = utf8Bytes (gs "Dialog")) := by
  obtain ⟨hturns, htitle, -, hne⟩ := openaiGenerate_ok hok
  refine ⟨?_, ?_, ?_⟩
  · intro htrim
    rw [htitle]
    unfold openaiTitle
    rw [if_pos htrim]
  · intro htrim
    rw [← hturns] at htitle
    cases hd : d.turns with
    | nil => exact absurd hd hne
    | cons t0 ts =>
      refine ⟨t0, ts, rfl, ?_⟩
      have ht0 : t0 ∈ d.turns := by rw [hd]; exact List.mem_cons_self _ _
      rw [hturns] at ht0
      obtain ⟨j, hj, _, _, _, _, h2⟩ := buildTurns_mem ht0
      rw [htitle, hd]
      unfold openaiTitle
      rw [if_neg (by simpa using htrim)]
      dsimp only
      rw [if_pos h2]
  · intro rawTitle htrim
    unfold openaiTitle
    rw [if_neg (by simpa using htrim)]

/-- C9 witness: blank model title, short first turn — the title becomes
that turn's text unmodified. -/
theorem C9_title_fallback_witness :
    (trimSpace exParsedNoTitle.title ≠ [] →
      exNoTitleOut.title = utf8Bytes (trimSpace exParsedNoTitle.title)) ∧
    (trimSpace exParsedNoTitle.title = [] → ∃ t0 ts, exNoTitleOut.turns = t0 :: ts ∧
      exNoTitleOut.title = (if (utf8Bytes (trimSpace t0.text)).length > 50
                 then (utf8Bytes (trimSpace t0.text)).take 50 ++ utf8Bytes (gs "...")
                 else utf8Bytes (trimSpace t0.text))) ∧
    (∀ rawTitle, trimSpace rawTitle = [] →
      openaiTitle rawTitle [] = utf8Bytes (gs "Dialog")) :=
  C9_title_fallback exParsedNoTitle exParams exNoTitleOut (by decide)

/-! ## C3 — translations normalization -/

theorem lookupKey_mapInsert_self (m : TransMap) (k v : GoStr) :
    lookupKey (mapInsert m k v) k = some v := by
  induction m with
  | nil => simp [mapInsert, lookupKey]
  | cons p rest ih =>
    obtain ⟨k', v'⟩ := p
    by_cases h : k' = k
    · subst h; simp [mapInsert, lookupKey]
    · simp only [mapInsert, if_neg h, lookupKey]
      exact ih

theorem lookupKey_mapInsert_ne (m : TransMap) (k v k' : GoStr) (h : k' ≠ k) :
    lookupKey (mapInsert m k v) k' = lookupKey m k' := by
  induction m with
  | nil => simp [mapInsert, lookupKey, if_neg (Ne.symm h)]
  | cons p rest ih =>
    obtain ⟨a, b⟩ := p
    by_cases ha : a = k
    · subst ha
      simp only [mapInsert, if_pos rfl, lookupKey]
      rw [if_neg (Ne.symm h), if_neg (Ne.symm h)]
    · simp only [mapInsert, if_neg ha, lookupKey]
      by_cases ha' : a = k'
      · rw [if_pos ha', if_pos ha']
      · rw [if_neg ha', if_neg ha']
        exact ih

/-- After the normalization fold, a key reached by some input word maps to
its resolved translation. -/
theorem normalize_foldl_not_mem (m : TransMap) (k : GoStr) :
    ∀ (ws : List GoStr) (acc : TransMap), (¬ ∃ w ∈ ws, trimSpace w = k) →
      lookupKey (ws.foldl
        (fun acc w => mapInsert acc (trimSpace w) (resolveWord m (trimSpace w))) acc) k
          = lookupKey acc k := by
  intro ws
  induction ws with
  | nil => intro acc _; rfl
  | cons w ws ih =>
    intro acc h
    push_neg at h
    have hw : trimSpace w ≠ k := h w (List.mem_cons_self _ _)
    have hws : ¬ ∃ w' ∈ ws, trimSpace w' = k := by
      push_neg
      exact fun w' hm => h w' (List.mem_cons_of_mem _ hm)
    simp only [List.foldl_cons]
    rw [ih _ hws, lookupKey_mapInsert_ne _ _ _ _ (Ne.symm hw)]

theorem normalize_foldl_mem (m : TransMap) (k : GoStr) :
    ∀ (ws : List GoStr) (acc : TransMap), (∃ w ∈ ws, trimSpace w = k) →
      lookupKey (ws.foldl
        (fun acc w => mapInsert acc (trimSpace w) (resolveWord m (trimSpace w))) acc) k
          = some (resolveWord m k) := by
  intro ws
  induction ws with
  | nil => intro acc h; simp at h
  | cons w ws ih =>
    intro acc h
    simp only [List.foldl_cons]
    by_cases hws : ∃ w' ∈ ws, trimSpace w' = k
    · exact ih _ hws
    · have hw : trimSpace w = k := by
        rcases h with ⟨w', hw', ht⟩
        rcases List.mem_cons.mp hw' with heq | hmem
        · rw [← heq]; exact ht
        · exact absurd ⟨w', hmem, ht⟩ hws
      rw [normalize_foldl_not_mem m k ws _ hws]
      rw [hw]
      exact lookupKey_mapInsert_self _ _ _

theorem findFold_some {m : TransMap} {t v : GoStr} (h : findFold m t = some v) :
    ∃ p ∈ m, eqFold (trimSpace p.1) t ∧ p.2 = v ∧ v ≠ [] := by
  induction m with
  | nil => simp [findFold] at h
  | cons q rest ih =>
    obtain ⟨k, w⟩ := q
    simp only [findFold] at h
    split at h
    · rename_i hcond
      injection h with h'
      exact ⟨(k, w), List.mem_cons_self _ _, hcond.1, h', h' ▸ hcond.2⟩
    · obtain ⟨p, hp, h1, h2, h3⟩ := ih h
      exact ⟨p, List.mem_cons_of_mem _ hp, h1, h2, h3⟩

theorem findFold_none {m : TransMap} {t : GoStr} (h : findFold m t = none) :
    ∀ p ∈ m, eqFold (trimSpace p.1) t → p.2 = [] := by
  induction m with
  | nil => intro p hp; simp at hp
  | cons q rest ih =>
    obtain ⟨k, w⟩ := q
    simp only [findFold] at h
    split at h
    · exact absurd h (by simp)
    · rename_i hcond
      intro p hp hfold
      rcases List.mem_cons.mp hp with heq | hmem
      · subst heq
        by_contra hne
        exact hcond ⟨hfold, hne⟩
      · exact ih h p hmem hfold

/-- The exact match takes priority: a nonempty exact-match value is the
resolved value. -/
theorem resolveWord_exact {m : TransMap} {t ve : GoStr}
    (h : lookupKey m t = some ve) (hne : ve ≠ []) :
    resolveWord m t = ve := by
  unfold resolveWord
  rw [h]
  dsimp only
  rw [if_pos hne]

/-- Without a nonempty exact match, the resolved value is a nonempty
case-insensitive match when one exists, and the empty string (with no
nonempty case-insensitive match available) otherwise. -/
theorem resolveWord_fallback {m : TransMap} {t : GoStr}
    (h : ¬ ∃ ve, lookupKey m t = some ve ∧ ve ≠ []) :
    (∃ p ∈ m, eqFold (trimSpace p.1) t ∧ p.2 = resolveWord m t ∧ resolveWord m t ≠ []) ∨
    (resolveWord m t = [] ∧ ∀ p ∈ m, eqFold (trimSpace p.1) t → p.2 = []) := by
  unfold resolveWord
  cases hl : lookupKey m t with
  | none =>
    dsimp only
    cases hf : findFold m t with
    | none =>
      right; exact ⟨rfl, findFold_none hf⟩
    | some v =>
      left
      obtain ⟨p, hp, h1, h2, h3⟩ := findFold_some hf
      exact ⟨p, hp, h1, h2, h3⟩
  | some v =>
    dsimp only
    have hv : ¬ v ≠ [] := fun hne => h ⟨v, hl, hne⟩
    rw [if_neg hv]
    cases hf : findFold m t with
    | none =>
      right; exact ⟨rfl, findFold_none hf⟩
    | some v' =>
      left
      obtain ⟨p, hp, h1, h2, h3⟩ := findFold_some hf
      exact ⟨p, hp, h1, h2, h3⟩

/-- C3 counterexample: the input word "casa" has an exact-match key in the
model's map (with empty value), yet the normalized value is the one found
under the case-insensitive key "CASA" — not the exact match's value. -/
theorem C3_counterexample :
    OpenAIClient.GenerateDialog (.ok exParsedTrans) exParams = .ok exTransOut ∧
    lookupKey exParsedTrans.translations (gs "casa") = some (gs "") ∧
    lookupKey exTransOut.translations (gs "casa") = some (gs "house") := by
  decide

/-- C3 (amended): a successful `GenerateDialog` returns a translations map
whose key set is exactly the trimmed input words.  The value stored for a
word is resolved with exact-match priority: whenever the model's map holds
a nonempty value under the exact trimmed word, that value is stored; only
in the absence of a nonempty exact match does the value fall back to a
nonempty translation under a case-insensitively (Unicode simple folding)
matching trimmed key, and to the empty string when no such match exists
either. -/
theorem C3_translations (parsed : DialogJSON) (params : GenerateDialogParams)
    (d : Dialog) (hok : OpenAIClient.GenerateDialog (.ok parsed) params = .ok d) :
    (∀ k, (lookupKey d.translations k).isSome ↔ ∃ w ∈ params.inputWords, trimSpace w = k) ∧
    (∀ w ∈ params.inputWords, ∃ v,
      lookupKey d.translations (trimSpace w) = some v ∧
      (∀ ve, lookupKey parsed.translations (trimSpace w) = some ve → ve ≠ [] → v = ve) ∧
      ((¬ ∃ ve, lookupKey parsed.translations (trimSpace w) = some ve ∧ ve ≠ []) →
        (∃ p ∈ parsed.translations,
            eqFold (trimSpace p.1) (trimSpace w) ∧ p.2 = v ∧ v ≠ []) ∨
        (v = [] ∧ ∀ p ∈ parsed.translations,
            eqFold (trimSpace p.1) (trimSpace w) → p.2 = []))) := by
  obtain ⟨-, -, htrans, -⟩ := openaiGenerate_ok hok
  constructor
  · intro k
    constructor
    · intro hsome
      by_contra hno
      rw [htrans] at hsome
      unfold normalizeTranslations at hsome
      rw [normalize_foldl_not_mem parsed.translations k params.inputWords [] hno] at hsome
      simp [lookupKey] at hsome
    · intro hyes
      rw [htrans]
      unfold normalizeTranslations
      rw [normalize_foldl_mem parsed.translations k params.inputWords [] hyes]
      rfl
  · intro w hw
    refine ⟨resolveWord parsed.translations (trimSpace w), ?_, ?_, ?_⟩
    · rw [htrans]
      unfold normalizeTranslations
      exact normalize_foldl_mem parsed.translations (trimSpace w) params.inputWords []
        ⟨w, hw, rfl⟩
    · intro ve hve hne
      exact resolveWord_exact hve hne
    · intro hno
      exact resolveWord_fallback hno

/-- C3 witness: the amended statement at a Cyrillic fixture where the
case-insensitive match crosses non-ASCII letter case ("дом" vs key
"ДОМ"). -/
theorem C3_translations_witness :
    (∀ k, (lookupKey exRuOut.translations k).isSome ↔
      ∃ w ∈ exParamsRu.inputWords, trimSpace w = k) ∧
    (∀ w ∈ exParamsRu.inputWords, ∃ v,
      lookupKey exRuOut.translations (trimSpace w) = some v ∧
      (∀ ve, lookupKey exParsedRu.translations (trimSpace w) = some ve → ve ≠ [] → v = ve) ∧
      ((¬ ∃ ve, lookupKey exParsedRu.translations (trimSpace w) = some ve ∧ ve ≠ []) →
        (∃ p ∈ exParsedRu.translations,
            eqFold (trimSpace p.1) (trimSpace w) ∧ p.2 = v ∧ v ≠ []) ∨
        (v = [] ∧ ∀ p ∈ exParsedRu.translations,
            eqFold (trimSpace p.1) (trimSpace w) → p.2 = []))) :=
  C3_translations exParsedRu exParamsRu exRuOut (by decide)

/-! ## C4 — empty synthesized audio -/

/-- Function `synthesizeText` never succeeds with empty audio: a successfully read
but empty provider body is converted into an error, so the caller's
placeholder branch is unreachable. -/
theorem synthesizeText_ok_ne_nil (provider : GoStr → TTSReply) (text : GoStr)
    (audio : List Nat)
    (h : ElevenLabsClient.synthesizeText provider text = .ok audio) :
    audio ≠ [] := by
  unfold ElevenLabsClient.synthesizeText at h
  cases hp : provider text with
  | transportErr msg => rw [hp] at h; dsimp only at h; exact absurd h (by simp)
  | httpResp status body =>
    rw [hp] at h
    dsimp only at h
    by_cases hs : status ≥ 400
    · rw [if_pos hs] at h; exact absurd h (by simp)
    · rw [if_neg hs] at h
      by_cases hb : body.length = 0
      · rw [if_pos hb] at h; exact absurd h (by simp)
      · rw [if_neg hb] at h
        injection h with h'
        rw [← h']
        simpa [List.length_eq_zero] using hb

/-- If any turn's text synthesizes to an error, the whole per-turn loop
fails. -/
theorem synthTurns_error_of_mem (provider : GoStr → TTSReply)
    {turns : List DialogTurn} {t : DialogTurn} (ht : t ∈ turns)
    {e : GoStr} (he : ElevenLabsClient.synthesizeText provider t.text = .error e) :
    ∀ ctr i, ∃ msg, ElevenLabsClient.synthTurns provider ctr i turns = .error msg := by
  induction turns with
  | nil => simp at ht
  | cons u rest ih =>
    intro ctr i
    simp only [ElevenLabsClient.synthTurns]
    have htext : (if u.id = uuidNil then { u with id := ctr + 1 } else u).text = u.text := by
      by_cases hid : u.id = uuidNil
      · rw [if_pos hid]
      · rw [if_neg hid]
    rw [htext]
    rcases List.mem_cons.mp ht with heq | hmem
    · rw [← heq, he]
      exact ⟨_, rfl⟩
    · cases hsy : ElevenLabsClient.synthesizeText provider u.text with
      | error e' => exact ⟨_, rfl⟩
      | ok audio =>
        obtain ⟨msg, hmsg⟩ :=
          ih hmem (if u.id = uuidNil then ctr + 1 else ctr) (i + 1)
        rw [hmsg]
        exact ⟨msg, rfl⟩

/-- C4 counterexample: a provider answering 200 with an empty body does
not get a placeholder — `SynthesizeDialog` fails the whole call with the
wrapped "empty audio" error. -/
theorem C4_counterexample :
    ElevenLabsClient.SynthesizeDialog exProviderEmpty 0 exDlgOneTurn =
      .error (gs "elevenlabs synthesize turn 0: elevenlabs returned empty audio") := by
  decide

/-- C4 (amended): when the provider responds without error but with an
empty audio body for some turn, the whole `SynthesizeDialog` call fails
(the per-turn "empty audio" signal is an error, not a benign placeholder
case); `synthesizeText` never returns empty audio successfully, so the
placeholder branch is dead code; and when the empty body hits the first
turn, the failure carries the SynthesisError message naming that turn
index. -/
theorem C4_empty_audio_fails (provider : GoStr → TTSReply) (ctr : Nat) (dlg : Dialog)
    (h : ∃ t ∈ dlg.turns, ∃ status, provider t.text = .httpResp status [] ∧ status < 400) :
    (∃ e, ElevenLabsClient.SynthesizeDialog provider ctr dlg = .error e) ∧
    (∀ text audio,
      ElevenLabsClient.synthesizeText provider text = .ok audio → audio ≠ []) ∧
    (∀ t0 ts, dlg.turns = t0 :: ts → ∀ s, provider t0.text = .httpResp s [] → s < 400 →
      ElevenLabsClient.SynthesizeDialog provider ctr dlg =
        .error (gs "elevenlabs synthesize turn 0: elevenlabs returned empty audio")) := by
  have hempty : ∀ (t : DialogTurn) (status : Nat),
      provider t.text = .httpResp status [] → status < 400 →
      ElevenLabsClient.synthesizeText provider t.text =
        .error (gs "elevenlabs returned empty audio") := by
    intro t status hp hs
    unfold ElevenLabsClient.synthesizeText
    rw [hp]
    dsimp only
    rw [if_neg (by omega), if_pos (by simp)]
  refine ⟨?_, ?_, ?_⟩
  · obtain ⟨t, ht, status, hp, hs⟩ := h
    obtain ⟨msg, hmsg⟩ := synthTurns_error_of_mem provider ht (hempty t status hp hs) ctr 0
    refine ⟨msg, ?_⟩
    unfold ElevenLabsClient.SynthesizeDialog
    rw [hmsg]
  · intro text audio h'
    exact synthesizeText_ok_ne_nil provider text audio h'
  · intro t0 ts hturns s hp hs
    unfold ElevenLabsClient.SynthesizeDialog
    rw [hturns]
    simp only [ElevenLabsClient.synthTurns]
    have htext : (if t0.id = uuidNil then { t0 with id := ctr + 1 } else t0).text
        = t0.text := by
      by_cases hid : t0.id = uuidNil
      · rw [if_pos hid]
      · rw [if_neg hid]
    rw [htext, hempty t0 s hp hs]
    dsimp only
    have hmsg : gs "elevenlabs synthesize turn " ++ natToChars 0 ++ gs ": " ++
        gs "elevenlabs returned empty audio" =
        gs "elevenlabs synthesize turn 0: elevenlabs returned empty audio" := by
      decide
    rw [hmsg]

/-- C4 witness: the amended statement at the concrete empty-body
provider. -/
theorem C4_empty_audio_fails_witness :
    (∃ e, ElevenLabsClient.SynthesizeDialog exProviderEmpty 0 exDlgOneTurn = .error e) ∧
    (∀ text audio,
      ElevenLabsClient.synthesizeText exProviderEmpty text = .ok audio → audio ≠ []) ∧
    (∀ t0 ts, exDlgOneTurn.turns = t0 :: ts →
      ∀ s, exProviderEmpty t0.text = .httpResp s [] → s < 400 →
      ElevenLabsClient.SynthesizeDialog exProviderEmpty 0 exDlgOneTurn =
        .error (gs "elevenlabs synthesize turn 0: elevenlabs returned empty audio")) :=
  C4_empty_audio_fails exProviderEmpty 0 exDlgOneTurn
    ⟨⟨3, gs "Ana", gs "Hola", [], 0⟩, by decide, 200, rfl, by decide⟩

/-! ## Collaborator facts used to justify the service-level hypotheses -/

/-- The stub LLM client never succeeds with zero turns. -/
theorem stubLLM_turns_ne_nil {params : GenerateDialogParams} {d : Dialog}
    (h : StubLLMClient.GenerateDialog params = .ok d) : d.turns ≠ [] := by
  unfold StubLLMClient.GenerateDialog at h
  by_cases hl : params.inputWords.length = 0
  · rw [if_pos hl] at h; exact absurd h (by simp)
  · rw [if_neg hl] at h
    injection h with h'
    rw [← h']
    intro heq
    have hlen := congrArg List.length heq
    simp at hlen

/-- The OpenAI client never succeeds with zero turns. -/
theorem openai_turns_ne_nil {pre : Except GoStr DialogJSON}
    {params : GenerateDialogParams} {d : Dialog}
    (h : OpenAIClient.GenerateDialog pre params = .ok d) : d.turns ≠ [] := by
  cases pre with
  | error e => simp [OpenAIClient.GenerateDialog] at h
  | ok parsed => exact (openaiGenerate_ok h).2.2.2

/-- The ElevenLabs per-turn loop preserves each turn's Position. -/
theorem synthTurns_ok_positions (provider : GoStr → TTSReply) :
    ∀ (turns : List DialogTurn) (ctr i : Nat) (ts : List DialogTurn) (ctr2 : Nat),
      ElevenLabsClient.synthTurns provider ctr i turns = .ok (ts, ctr2) →
      ts.map (fun t => t.position) = turns.map (fun t => t.position) := by
  intro turns
  induction turns with
  | nil =>
    intro ctr i ts ctr2 h
    simp only [ElevenLabsClient.synthTurns] at h
    injection h with h'
    injection h' with ha hb
    rw [← ha]
  | cons u rest ih =>
    intro ctr i ts ctr2 h
    simp only [ElevenLabsClient.synthTurns] at h
    cases hsy : ElevenLabsClient.synthesizeText provider
        (if u.id = uuidNil then { u with id := ctr + 1 } else u).text with
    | error e => rw [hsy] at h; exact absurd h (by simp)
    | ok audio =>
      rw [hsy] at h
      dsimp only at h
      cases hrec : ElevenLabsClient.synthTurns provider
          (if u.id = uuidNil then ctr + 1 else ctr) (i + 1) rest with
      | error e => rw [hrec] at h; exact absurd h (by simp)
      | ok p =>
        obtain ⟨rest2, ctrF⟩ := p
        rw [hrec] at h
        dsimp only at h
        injection h with h'
        injection h' with ha hb
        rw [← ha]
        simp only [List.map_cons]
        have hpos : (if audio.length = 0
            then { (if u.id = uuidNil then { u with id := ctr + 1 } else u) with
                   audioURL := placeholderAudioURL i }
            else { (if u.id = uuidNil then { u with id := ctr + 1 } else u) with
                   audioURL := audioDataURL audio }).position = u.position := by
          by_cases h1 : audio.length = 0 <;> by_cases h2 : u.id = uuidNil <;>
            simp [h1, h2]
        rw [hpos, ih _ _ _ _ hrec]

/-- Function `ElevenLabsClient.SynthesizeDialog` preserves the turns' positions on
success. -/
theorem elevenLabs_preserves_positions (provider : GoStr → TTSReply)
    (ctr : Nat) (dlg dlg2 : Dialog) (ctr2 : Nat)
    (h : ElevenLabsClient.SynthesizeDialog provider ctr dlg = .ok (dlg2, ctr2)) :
    dlg2.turns.map (fun t => t.position) = dlg.turns.map (fun t => t.position) := by
  unfold ElevenLabsClient.SynthesizeDialog at h
  cases hrec : ElevenLabsClient.synthTurns provider ctr 0 dlg.turns with
  | error e => rw [hrec] at h; exact absurd h (by simp)
  | ok p =>
    obtain ⟨ts, c⟩ := p
    rw [hrec] at h
    dsimp only at h
    injection h with h'
    injection h' with ha hb
    rw [← ha]
    exact synthTurns_ok_positions provider dlg.turns ctr 0 ts c hrec

/-- The stub TTS client preserves the turns' positions. -/
theorem stubTTS_preserves_positions (ctr : Nat) (dlg : Dialog) :
    (StubTTSClient.SynthesizeDialog ctr dlg).1.turns.map (fun t => t.position) =
      dlg.turns.map (fun t => t.position) := by
  have key : ∀ (ts : List DialogTurn) (acc : List DialogTurn × Nat),
      ((ts.foldl stubStep acc).1).map (fun t => t.position) =
        acc.1.map (fun t => t.position) ++ ts.map (fun t => t.position) := by
    intro ts
    induction ts with
    | nil => intro acc; simp
    | cons u rest ih =>
      intro acc
      simp only [List.foldl_cons]
      rw [ih]
      have hstep : (stubStep acc u).1.map (fun t => t.position) =
          acc.1.map (fun t => t.position) ++ [u.position] := by
        unfold stubStep
        by_cases h2 : u.id = uuidNil <;> simp [h2]
      rw [hstep]
      simp
  unfold StubTTSClient.SynthesizeDialog
  dsimp only
  rw [key]
  simp

/-! ## Service lemmas -/

/-- The renumbering loop stamps positions `i, i+1, ...` in array order. -/
theorem renumberTurns_positions :
    ∀ (ts : List DialogTurn) (ctr i : Nat),
      ((renumberTurns ctr i ts).1).map (fun t => t.position) =
        List.range' i ts.length := by
  intro ts
  induction ts with
  | nil => intro ctr i; rfl
  | cons u rest ih =>
    intro ctr i
    simp only [renumberTurns, List.map_cons, List.length_cons, List.range'_succ]
    congr 1
    exact ih _ _

/-! ## C1 — no persistence on generation/synthesis failure -/

/-- C1: whenever the generation call `CreateDialog` issued failed, or the
synthesis call it issued failed, `CreateDialog` returns an error and the
store's Create is never invoked. -/
theorem C1_no_persist_on_failure (env : ServiceEnv) (ctr now : Nat)
    (input : CreateDialogInput)
    (h : (∃ p ∈ (Service.CreateDialog env ctr now input).2.llmCalls,
            ∃ e, env.llm p = .error e) ∨
         (∃ d ∈ (Service.CreateDialog env ctr now input).2.ttsCalls,
            ∃ e, env.tts d = .error e)) :
    (∃ err, (Service.CreateDialog env ctr now input).1 = .error err) ∧
    (Service.CreateDialog env ctr now input).2.storeCalls = [] := by
  unfold Service.CreateDialog at h ⊢
  cases hv : validateCreateInput input with
  | some msg => exact ⟨⟨_, rfl⟩, rfl⟩
  | none =>
    rw [hv] at h
    dsimp only at h ⊢
    cases hllm : env.llm (paramsOfInput input) with
    | error e => exact ⟨⟨_, rfl⟩, rfl⟩
    | ok generated =>
      rw [hllm] at h
      dsimp only at h ⊢
      cases htts : env.tts (assembleDialog ctr now input generated) with
      | error e => exact ⟨⟨_, rfl⟩, rfl⟩
      | ok withAudio =>
        rw [htts] at h
        dsimp only at h ⊢
        exfalso
        cases hst : env.storeCreate withAudio with
        | error e2 =>
          rw [hst] at h
          dsimp only at h
          rcases h with ⟨p, hp, e, he⟩ | ⟨d0, hd0, e, he⟩
          · rw [List.mem_singleton] at hp
            rw [hp, hllm] at he
            exact absurd he (by simp)
          · rw [List.mem_singleton] at hd0
            rw [hd0, htts] at he
            exact absurd he (by simp)
        | ok u =>
          rw [hst] at h
          dsimp only at h
          rcases h with ⟨p, hp, e, he⟩ | ⟨d0, hd0, e, he⟩
          · rw [List.mem_singleton] at hp
            rw [hp, hllm] at he
            exact absurd he (by simp)
          · rw [List.mem_singleton] at hd0
            rw [hd0, htts] at he
            exact absurd he (by simp)

/-- C1 witness: a failing generation client on a valid input. -/
theorem C1_no_persist_on_failure_witness :
    (∃ err, (Service.CreateDialog exEnvLLMFail 0 0 exInput).1 = .error err) ∧
    (Service.CreateDialog exEnvLLMFail 0 0 exInput).2.storeCalls = [] :=
  C1_no_persist_on_failure exEnvLLMFail 0 0 exInput
    (Or.inl ⟨exParams, by decide, gs "boom", rfl⟩)

/-! ## C2 — the created dialog's turn positions -/

/-- C2: for any collaborators where generation never succeeds with zero
turns (true of both repository LLM clients) and synthesis preserves turn
positions (true of both repository TTS clients), a successful
`CreateDialog` returns at least one turn, with positions exactly
`0..N-1` in array order — regardless of the positions the generation
client set. -/
theorem C2_create_positions (env : ServiceEnv) (ctr now : Nat)
    (input : CreateDialogInput) (d : Dialog) (tr : CallTrace)
    (hllm : ∀ p g, env.llm p = .ok g → g.turns ≠ [])
    (htts : ∀ x y, env.tts x = .ok y →
      y.turns.map (fun t => t.position) = x.turns.map (fun t => t.position))
    (hok : Service.CreateDialog env ctr now input = (.ok d, tr)) :
    d.turns ≠ [] ∧
    d.turns.map (fun t => t.position) = List.range d.turns.length := by
  unfold Service.CreateDialog at hok
  cases hv : validateCreateInput input with
  | some msg => rw [hv] at hok; exact absurd hok (by simp)
  | none =>
    rw [hv] at hok
    dsimp only at hok
    cases hgen : env.llm (paramsOfInput input) with
    | error e => rw [hgen] at hok; exact absurd hok (by simp)
    | ok g =>
      rw [hgen] at hok
      dsimp only at hok
      cases htts2 : env.tts (assembleDialog ctr now input g) with
      | error e => rw [htts2] at hok; exact absurd hok (by simp)
      | ok w =>
        rw [htts2] at hok
        dsimp only at hok
        cases hst : env.storeCreate w with
        | error e => rw [hst] at hok; exact absurd hok (by simp)
        | ok u =>
          rw [hst] at hok
          dsimp only at hok
          have hw : w = d := by
            have hfst := congrArg Prod.fst hok
            dsimp only at hfst
            injection hfst
          have hpos := htts _ _ htts2
          have hassemble : (assembleDialog ctr now input g).turns.map
              (fun t => t.position) = List.range' 0 g.turns.length := by
            unfold assembleDialog
            exact renumberTurns_positions g.turns (ctr + 1) 0
          have hne : g.turns ≠ [] := hllm _ _ hgen
          have hdpos : d.turns.map (fun t => t.position) =
              List.range' 0 g.turns.length := by
            rw [← hw, hpos, hassemble]
          have hdlen : d.turns.length = g.turns.length := by
            have := congrArg List.length hdpos
            simpa using this
          constructor
          · intro hnil
            rw [hnil] at hdlen
            exact hne (List.length_eq_zero.mp hdlen.symm)
          · rw [hdpos, hdlen, List.range_eq_range']

/-- C2 witness: a concrete run with a generated turn carrying a bogus
position, renumbered to 0 in the persisted dialog. -/
theorem C2_create_positions_witness :
    exOutDialog.turns ≠ [] ∧
    exOutDialog.turns.map (fun t => t.position) =
      List.range exOutDialog.turns.length :=
  C2_create_positions exEnvOK 0 0 exInput exOutDialog exTrace
    (fun p g h => by injection h with h2; rw [← h2]; decide)
    (fun x y h => by injection h with h2; rw [h2])
    (by decide)

/-! ## C7 — input validation -/

/-- Function `validateCreateInput` rejects exactly the inputs violating the
documented conditions. -/
theorem validateCreateInput_some_iff (input : CreateDialogInput) :
    (validateCreateInput input).isSome ↔ badCreateInput input := by
  unfold validateCreateInput badCreateInput
  split_ifs with h1 h2 h3
  · simp only [Option.isSome_some, true_iff]
    tauto
  · simp only [Option.isSome_some, true_iff]
    have := List.length_eq_zero.mp h2
    tauto
  · simp only [Option.isSome_some, true_iff]
    simp only [List.any_eq_true, beq_iff_eq] at h3
    tauto
  · constructor
    · intro hs; simp at hs
    · rintro (h | h | h | h | ⟨w, hw, ht⟩)
      · exact absurd (Or.inl h) h1
      · exact absurd (Or.inr (Or.inl h)) h1
      · exact absurd (Or.inr (Or.inr h)) h1
      · exact absurd (by simp [h]) h2
      · exact absurd (List.any_eq_true.mpr ⟨w, hw, by simp [ht]⟩) h3

/-- C7: `CreateDialog` fails with the invalid-input error exactly when a
required field is blank, the word list is empty, or some word is blank
after trimming; and on that path no generation, synthesis, or store call
is made. -/
theorem C7_invalid_input (env : ServiceEnv) (ctr now : Nat)
    (input : CreateDialogInput) :
    ((∃ m, (Service.CreateDialog env ctr now input).1 = .error (.invalidInput m)) ↔
      badCreateInput input) ∧
    (badCreateInput input → ∃ m,
      Service.CreateDialog env ctr now input =
        (.error (.invalidInput m), ⟨[], [], []⟩)) := by
  have hiff := validateCreateInput_some_iff input
  have hbad : badCreateInput input → ∃ m,
      Service.CreateDialog env ctr now input =
        (.error (.invalidInput m), ⟨[], [], []⟩) := by
    intro hb
    obtain ⟨m, hm⟩ := Option.isSome_iff_exists.mp (hiff.mpr hb)
    refine ⟨m, ?_⟩
    unfold Service.CreateDialog
    rw [hm]
  refine ⟨⟨?_, ?_⟩, hbad⟩
  · rintro ⟨m, hm⟩
    by_contra hb
    have hnone : validateCreateInput input = none := by
      cases hv : validateCreateInput input with
      | none => rfl
      | some m' => exact absurd (hiff.mp (by simp [hv])) hb
    unfold Service.CreateDialog at hm
    rw [hnone] at hm
    dsimp only at hm
    cases hgen : env.llm (paramsOfInput input) with
    | error e => rw [hgen] at hm; dsimp only at hm; simp at hm
    | ok g =>
      rw [hgen] at hm
      dsimp only at hm
      cases htts : env.tts (assembleDialog ctr now input g) with
      | error e => rw [htts] at hm; dsimp only at hm; simp at hm
      | ok w =>
        rw [htts] at hm
        dsimp only at hm
        cases hst : env.storeCreate w with
        | error e => rw [hst] at hm; dsimp only at hm; simp at hm
        | ok u => rw [hst] at hm; dsimp only at hm; simp at hm
  · intro hb
    obtain ⟨m, hm⟩ := hbad hb
    exact ⟨m, by rw [hm]⟩

/-- C7 witness: a blank input language is rejected with no collaborator
calls. -/
theorem C7_invalid_input_witness :
    ∃ m, Service.CreateDialog exEnvOK 0 0 exBadInput =
      (.error (.invalidInput m), ⟨[], [], []⟩) :=
  (C7_invalid_input exEnvOK 0 0 exBadInput).2 (by decide)

/-! ## C8 — repository round-trip -/

/-- A successful turn insertion appends exactly one row per turn, in
order. -/
theorem insertTurnRows_ok_shape (dialogId : UUID) :
    ∀ (ts : List DialogTurn) (rows out : List TurnRow),
      insertTurnRows dialogId rows ts = .ok out →
      out = rows ++ ts.map (rowOfTurn dialogId) := by
  intro ts
  induction ts with
  | nil =>
    intro rows out h
    simp only [insertTurnRows] at h
    injection h with h'
    simp [h']
  | cons t rest ih =>
    intro rows out h
    simp only [insertTurnRows] at h
    split at h
    · exact absurd h (by simp)
    · rw [ih _ _ h]
      simp

/-- Function `find?` skips a prefix with no matches. -/
theorem find?_append_right {α : Type} {p : α → Bool} {l1 l2 : List α}
    (h : ∀ r ∈ l1, ¬ p r) : (l1 ++ l2).find? p = l2.find? p := by
  induction l1 with
  | nil => rfl
  | cons a l ih =>
    rw [List.cons_append, List.find?_cons_of_neg _ (h a (List.mem_cons_self _ _))]
    exact ih (fun r hr => h r (List.mem_cons_of_mem _ hr))

/-- Scanning back an inserted turn row restores the turn. -/
theorem turnOfRow_rowOfTurn (dialogId : UUID) (t : DialogTurn) :
    turnOfRow (rowOfTurn dialogId t) = t := rfl

/-- C8 counterexample: a dialog whose turns are listed against position
order persists successfully, but `GetByID` returns the turns re-ordered by
position — not the identical turn sequence. -/
theorem C8_counterexample :
    DialogRepository.Create emptyDB exDlgUnsorted = .ok exDBUnsorted ∧
    DialogRepository.GetByID exDBUnsorted 5 = .ok exFetchedUnsorted ∧
    exFetchedUnsorted.turns ≠ exDlgUnsorted.turns ∧
    exFetchedUnsorted.inputWords = exDlgUnsorted.inputWords ∧
    exFetchedUnsorted.translations = exDlgUnsorted.translations := by
  decide

/-- C8 (amended): for a database satisfying the schema's foreign-key
invariant, any dialog whose turns are listed in strictly ascending
position order (as every dialog assembled by `CreateDialog` is) that is
successfully persisted by `Create` is reproduced identically by a
subsequent `GetByID` — same InputWords (order and multiplicity), same
Translations, and the same Turns with their Position order and AudioURL
values. -/
theorem C8_roundtrip (db db' : DB) (dlg : Dialog)
    (hfk : ∀ r ∈ db.dialogTurns, ∃ drow ∈ db.dialogs, r.dialogId = drow.id)
    (hsorted : List.Pairwise (fun a b => a.position < b.position) dlg.turns)
    (hcreate : DialogRepository.Create db dlg = .ok db') :
    ∃ d', DialogRepository.GetByID db' dlg.id = .ok d' ∧
      d'.inputWords = dlg.inputWords ∧
      d'.translations = dlg.translations ∧
      d'.turns = dlg.turns := by
  unfold DialogRepository.Create at hcreate
  split at hcreate
  · exact absurd hcreate (by simp)
  · rename_i hnodup
    have hno : ∀ r ∈ db.dialogs, r.id ≠ dlg.id := by
      intro r hr heq
      exact hnodup (List.any_eq_true.mpr ⟨r, hr, by simp [heq]⟩)
    cases hins : insertTurnRows dlg.id db.dialogTurns dlg.turns with
    | error e => rw [hins] at hcreate; exact absurd hcreate (by simp)
    | ok rows =>
      rw [hins] at hcreate
      dsimp only at hcreate
      injection hcreate with hdb
      have hrows := insertTurnRows_ok_shape dlg.id dlg.turns db.dialogTurns rows hins
      -- the dialog row find? lands on the appended row
      have hfind : db'.dialogs.find? (fun r => r.id == dlg.id) =
          some ⟨dlg.id, dlg.inputLanguage, dlg.dialogLanguage, dlg.cefrLevel,
                dlg.inputWords, dlg.turns, dlg.translations, dlg.createdAt⟩ := by
        rw [← hdb]
        dsimp only
        rw [find?_append_right (by
          intro r hr
          simp only [beq_iff_eq]
          exact hno r hr)]
        simp [List.find?]
      -- the turn rows filter keeps exactly the inserted rows
      have hfilter : db'.dialogTurns.filter (fun r => r.dialogId == dlg.id) =
          dlg.turns.map (rowOfTurn dlg.id) := by
        rw [← hdb]
        dsimp only
        rw [hrows, List.filter_append]
        have hold : db.dialogTurns.filter (fun r => r.dialogId == dlg.id) = [] := by
          rw [List.filter_eq_nil_iff]
          intro r hr
          simp only [beq_iff_eq]
          obtain ⟨drow, hdrow, heq⟩ := hfk r hr
          intro hcontra
          exact hno drow hdrow (by rw [← heq, hcontra])
        have hnew : (dlg.turns.map (rowOfTurn dlg.id)).filter
            (fun r => r.dialogId == dlg.id) = dlg.turns.map (rowOfTurn dlg.id) := by
          rw [List.filter_eq_self]
          intro r hr
          obtain ⟨t, ht, hrt⟩ := List.mem_map.mp hr
          rw [← hrt]
          simp [rowOfTurn]
        rw [hold, hnew, List.nil_append]
      have hback : ∀ ts : List DialogTurn,
          (ts.map (rowOfTurn dlg.id)).map turnOfRow = ts := by
        intro ts
        induction ts with
        | nil => rfl
        | cons t ts ih => simp only [List.map_cons, ih, turnOfRow_rowOfTurn]
      have hsort : sortTurnsByPosition dlg.turns = dlg.turns := by
        unfold sortTurnsByPosition
        exact List.Sorted.insertionSort_eq
          (List.Pairwise.imp (fun hab => Nat.le_of_lt hab) hsorted)
      refine ⟨{ id := dlg.id, title := [], inputLanguage := dlg.inputLanguage,
                dialogLanguage := dlg.dialogLanguage, cefrLevel := dlg.cefrLevel,
                inputWords := dlg.inputWords, translations := dlg.translations,
                turns := dlg.turns, createdAt := dlg.createdAt },
              ?_, rfl, rfl, rfl⟩
      unfold DialogRepository.GetByID
      rw [hfind]
      dsimp only
      rw [hfilter, hback, hsort]

/-- C8 witness: a position-sorted dialog round-trips identically through
the empty database. -/
theorem C8_roundtrip_witness :
    ∃ d', DialogRepository.GetByID exDBSorted exDlgSorted.id = .ok d' ∧
      d'.inputWords = exDlgSorted.inputWords ∧
      d'.translations = exDlgSorted.translations ∧
      d'.turns = exDlgSorted.turns :=
  C8_roundtrip emptyDB exDBSorted exDlgSorted
    (by intro r hr; exact absurd hr (List.not_mem_nil r))
    (by decide)
    (by decide)
